import Mathlib

/-!
Shallow embedding of the Device Pool Executor of onnx-web
(src/api/onnx_web/worker/{pool.py, worker.py, context.py}).

Python dictionaries are modelled as insertion-ordered association lists,
torch.multiprocessing queues as bounded FIFO lists with a closed flag,
Value("B") cancel flags as booleans, and process liveness as a boolean
stored per device.  Exceptions are modelled with an explicit error value;
operations that mutate state before raising return the partially mutated
state together with the error, mirroring Python semantics.  The job
callable is never invoked by any code in the repository, so its type is
kept opaque (a fixed function type that the embedding never applies).
-/

/-- Python exception kinds raised by the embedded code. -/
inductive PyErr where
  | cancelled : PyErr      -- RuntimeError("job has been cancelled")
  | full : PyErr           -- queue.Full from put(block=False), the Backpressure case
  | valueError : PyErr     -- put on a closed queue
  | keyError : String → PyErr   -- dict lookup failure
  | indexError : PyErr     -- list index out of range
deriving DecidableEq, Repr

/-- Bounded FIFO queue standing for torch.multiprocessing.Queue. -/
structure BQueue (α : Type) where
  capacity : Nat
  items : List α
  closed : Bool
deriving Repr

/-- Queue(maxsize) constructor: empty, open. -/
def BQueue.mk0 (α : Type) (capacity : Nat) : BQueue α :=
  { capacity := capacity, items := [], closed := false }

/-- qsize(). -/
def BQueue.qsize (q : BQueue α) : Nat := q.items.length

/-- put(x, block=False): raises ValueError when closed, Full when at capacity. -/
def BQueue.put (q : BQueue α) (x : α) : Except PyErr (BQueue α) :=
  if q.closed then .error .valueError
  else if q.capacity ≤ q.items.length then .error .full
  else .ok { q with items := q.items ++ [x] }

/-- get() on a non-empty queue: drop the oldest entry. -/
def BQueue.drop1 (q : BQueue α) : BQueue α :=
  { q with items := q.items.drop 1 }

/-- close(). -/
def BQueue.close (q : BQueue α) : BQueue α := { q with closed := true }

/-- Insertion-ordered association list lookup (Python dict read m[k] / m.get(k)). -/
def alookup {κ V : Type} [DecidableEq κ] (m : List (κ × V)) (k : κ) : Option V :=
  match m with
  | [] => none
  | (k', v) :: rest => if k' = k then some v else alookup rest k

/-- Python dict assignment m[k] = v: update in place, else append at the end. -/
def aset {κ V : Type} [DecidableEq κ] (m : List (κ × V)) (k : κ) (v : V) :
    List (κ × V) :=
  match m with
  | [] => [(k, v)]
  | (k', v') :: rest => if k' = k then (k', v) :: rest else (k', v') :: aset rest k v

/-- Python del m[k]. -/
def adel {κ V : Type} [DecidableEq κ] (m : List (κ × V)) (k : κ) : List (κ × V) :=
  match m with
  | [] => []
  | (k', v') :: rest => if k' = k then rest else (k', v') :: adel rest k

/-- DeviceParams: stable identity is the device name. -/
structure DeviceParams where
  device : String
deriving DecidableEq, Repr

/-- The job callable type.  No code in the repository under verification ever
invokes a submitted callable, so the embedding never applies values of this
type; any inhabited function type is faithful. -/
def JobFn : Type := Nat → Nat

/-- Opaque positional-args payload of a pending entry. -/
def JobArgs : Type := List Nat

/-- Opaque keyword-args payload of a pending entry. -/
def JobKw : Type := List (String × Nat)

/-- Pending-queue entry (key, fn, args, kwargs) as put by submit. -/
def PEntry : Type := String × JobFn × JobArgs × JobKw

/-- WorkerContext as seen from inside a worker process (context.py).
progress and finished are the shared stream endpoints; pending is the
device's job queue. -/
structure WorkerContextS where
  job : String
  device : String            -- device.device, as used by set_progress
  cancel : Bool              -- Value("B")
  pending : BQueue PEntry
  progress : BQueue (String × String × Nat)
  finished : BQueue (String × String)
  logs : BQueue String

/-- WorkerContext.is_cancelled. -/
def WorkerContextS.is_cancelled (ctx : WorkerContextS) : Bool := ctx.cancel

/-- WorkerContext.set_progress: non-blocking put of (job, device, progress)
onto the progress stream. -/
def WorkerContextS.set_progress (ctx : WorkerContextS) (progress : Nat) :
    Except PyErr WorkerContextS :=
  match ctx.progress.put (ctx.job, ctx.device, progress) with
  | .error e => .error e
  | .ok q => .ok { ctx with progress := q }

/-- The on_progress closure returned by WorkerContext.get_progress_callback.
The closure attribute on_progress.step is threaded explicitly as attrStep.
Returns (raised exception if any, context, new attribute value); the
attribute is written before the cancel check, so it is updated even on the
Cancelled path, exactly as in the source. -/
def on_progress (ctx : WorkerContextS) (_attrStep : Nat) (step _timestep : Nat) :
    Option PyErr × WorkerContextS × Nat :=
  let a := step
  if ctx.is_cancelled then (some .cancelled, ctx, a)
  else
    match ctx.set_progress step with
    | .error e => (some e, ctx, a)
    | .ok ctx' => (none, ctx', a)

/-- One pass of the worker_init loop body (worker.py lines 26-32): when the
pending queue is non-empty, get() the entry and log it.  This is everything
the loop does: the dequeued callable is never invoked and nothing is pushed
onto the finished stream. -/
def worker_init_step (ctx : WorkerContextS) : WorkerContextS :=
  if ctx.pending.items.isEmpty then ctx     -- logger.info("no jobs, sleeping"); sleep(5)
  else { ctx with pending := ctx.pending.drop1 }   -- job = pending.get(); logger.info

/-- Pool-side view of a device's WorkerContext: only the fields the
Executor reads or writes (the stream endpoints it passed in are the pool
queues held in PoolState). -/
structure WCtx where
  job : String
  cancel : Bool
deriving DecidableEq, Repr

/-- DevicePoolExecutor state (pool.py).  Worker process handles are
modelled by their liveness bit. -/
structure PoolState where
  devices : List DeviceParams
  max_jobs_per_worker : Nat
  max_pending_per_worker : Nat
  context : List (String × WCtx)
  pending : List (String × BQueue PEntry)
  workers : List (String × Bool)       -- device name -> is_alive()
  active_jobs : List (String × (String × Nat))
  cancelled_jobs : List String
  finished_jobs : List (String × Nat × Bool)
  total_jobs : List (String × Nat)
  logs : BQueue String
  progressQ : BQueue (String × String × Nat)
  finishedQ : BQueue (String × String)

/-- collections.Counter as an insertion-ordered (key, count) list. -/
def Counter : Type := List (Nat × Nat)

/-- Counter(range(n)): each index counted once, in order. -/
def counterInit (n : Nat) : Counter :=
  (List.range n).map (fun i => (i, 1))

/-- Add one occurrence of key k, appending a new key at the end. -/
def counterAdd (c : Counter) (k : Nat) : Counter :=
  match c with
  | [] => [(k, 1)]
  | (k', n) :: rest => if k' = k then (k', n + 1) :: rest else (k', n) :: counterAdd rest k

/-- Counter.update(iterable): count each element of the iterable. -/
def counterUpdate (c : Counter) (ks : List Nat) : Counter :=
  ks.foldl counterAdd c

/-- Stable insert for descending-by-count order (x goes after all earlier
elements with a count at least its own). -/
def insertDesc (x : Nat × Nat) : List (Nat × Nat) → List (Nat × Nat)
  | [] => [x]
  | y :: ys => if y.2 < x.2 then x :: y :: ys else y :: insertDesc x ys

/-- Counter.most_common(): stable sort by count, descending (Python sorted
with reverse=True keeps insertion order among equal counts). -/
def mostCommon (c : Counter) : List (Nat × Nat) :=
  c.foldl (fun acc x => insertDesc x acc) []

/-- Stable insert for ascending order. -/
def insertAsc (x : Nat) : List Nat → List Nat
  | [] => [x]
  | y :: ys => if x < y then x :: y :: ys else y :: insertAsc x ys

/-- list.sort() on naturals. -/
def sortAsc (l : List Nat) : List Nat :=
  l.foldl (fun acc x => insertAsc x acc) []

/-- queued[-1] with a default for the (unreachable in practice) empty case. -/
def lastD {α : Type} (l : List α) (d : α) : α :=
  match l with
  | [] => d
  | [x] => x
  | _ :: rest => lastD rest d

/-- The explicit pin-matching loop at the top of get_next_device:
first index whose device name matches. -/
def find_device_index (ds : List DeviceParams) (nd : DeviceParams) : Option Nat :=
  match ds with
  | [] => none
  | d :: rest =>
    if d.device = nd.device then some 0
    else (find_device_index rest nd).map (· + 1)

/-- The list comprehension building the queue sizes in get_next_device,
evaluated left to right; a missing pending queue raises KeyError. -/
def collect_qsizes (s : PoolState) : List DeviceParams → Except PyErr (List Nat)
  | [] => Except.ok []
  | d :: rest =>
    match alookup s.pending d.device with
    | none => Except.error (PyErr.keyError d.device)
    | some q =>
      match collect_qsizes s rest with
      | Except.error e => Except.error e
      | Except.ok qs => Except.ok (q.qsize :: qs)

/-- The balancing arithmetic of get_next_device (pool.py lines 201-211),
translated literally: a Counter seeded with the device indices is updated
with the list of queue sizes (counting the sizes as elements), and the
device picked is the smallest key among those with the lowest count. -/
def get_next_device_depth (s : PoolState) : Except PyErr Nat :=
  match collect_qsizes s s.devices with
  | Except.error e => Except.error e
  | Except.ok qsizes =>
    let jobs := counterUpdate (counterInit s.devices.length) qsizes
    let queued := mostCommon jobs
    let lowest_count := (lastD queued (0, 0)).2
    let lowest_devices := (queued.filter (fun p => p.2 = lowest_count)).map (fun p => p.1)
    Except.ok ((sortAsc lowest_devices).headD 0)

/-- get_next_device (pool.py lines 194-211). -/
def get_next_device (s : PoolState) (needs_device : Option DeviceParams) :
    Except PyErr Nat :=
  match needs_device with
  | some nd =>
    match find_device_index s.devices nd with
    | some i => Except.ok i
    | none => get_next_device_depth s
  | none => get_next_device_depth s

/-- cancel (pool.py lines 213-232): append to cancelled_jobs; if the key is
not active return True; otherwise set the cancel flag of the device's
context and return True.  The state is returned even on the (key-error)
exception path because the append has already happened. -/
def cancel (s : PoolState) (key : String) : Except PyErr Bool × PoolState :=
  let s1 := { s with cancelled_jobs := s.cancelled_jobs ++ [key] }
  match alookup s1.active_jobs key with
  | none => (.ok true, s1)
  | some (device, _progress) =>
    match alookup s1.context device with
    | none => (.error (.keyError device), s1)
    | some ctx =>
      (.ok true, { s1 with context := aset s1.context device { ctx with cancel := true } })

/-- The linear search over finished_jobs inside done: first match in list
order, which is insertion order, i.e. oldest first. -/
def find_finished (l : List (String × Nat × Bool)) (key : String) :
    Option (Nat × Bool) :=
  match l with
  | [] => none
  | (k, p, c) :: rest => if k = key then some (p, c) else find_finished rest key

/-- done (pool.py lines 234-250): (some true, p) for a finished key,
(some false, progress) for an active key, (none, 0) otherwise. -/
def done (s : PoolState) (key : String) : Option Bool × Nat :=
  match find_finished s.finished_jobs key with
  | some (p, _c) => (some true, p)
  | none =>
    match alookup s.active_jobs key with
    | none => (none, 0)
    | some (_device, progress) => (some false, progress)

/-- Done as the claim words it: search finished_jobs most-recent-first. -/
def done_spec_most_recent (s : PoolState) (key : String) : Option Bool × Nat :=
  match find_finished s.finished_jobs.reverse key with
  | some (p, _c) => (some true, p)
  | none =>
    match alookup s.active_jobs key with
    | none => (none, 0)
    | some (_device, progress) => (some false, progress)

/-- Done as amended: search finished_jobs oldest-first (insertion order),
phrased through List.find?. -/
def done_spec_oldest (s : PoolState) (key : String) : Option Bool × Nat :=
  match s.finished_jobs.find? (fun e => e.1 = key) with
  | some (_k, p, _c) => (some true, p)
  | none =>
    match alookup s.active_jobs key with
    | none => (none, 0)
    | some (_device, progress) => (some false, progress)

/-- status (pool.py lines 347-363). -/
def status (s : PoolState) : List (String × Nat × Bool × Bool) :=
  (s.active_jobs.map (fun e => (e.1, (e.2).2, false, decide (e.1 ∈ s.cancelled_jobs))))
    ++ (s.finished_jobs.map (fun e => (e.1, (e.2).1, true, (e.2).2)))

/-- One record handled by the finished-fan loop body (pool.py lines
164-177).  Both dict lookups can raise KeyError, which the surrounding
except-clause swallows, leaving the state unchanged and the loop running. -/
def finished_step (s : PoolState) (rec : String × String) : PoolState :=
  let (job, device) := rec
  match alookup s.context device with
  | none => s        -- KeyError on context[device], caught by the loop
  | some ctx =>
    match alookup s.active_jobs job with
    | none => s      -- KeyError on active_jobs[job], caught by the loop
    | some (_d, progress) =>
      { s with
        finished_jobs := s.finished_jobs ++ [(job, progress, ctx.cancel)],
        active_jobs := adel s.active_jobs job }

/-- create_device_worker (pool.py lines 74-103): reuse the pending queue if
one exists, else create a fresh one; install a fresh context with a cleared
cancel flag; start a new (alive) worker process. -/
def create_device_worker (s : PoolState) (device : DeviceParams) : PoolState :=
  let name := device.device
  match alookup s.pending name with
  | some _q =>
    { s with
      context := aset s.context name { job := name, cancel := false },
      workers := aset s.workers name true }
  | none =>
    let s' := { s with pending := aset s.pending name (BQueue.mk0 PEntry s.max_pending_per_worker) }
    { s' with
      context := aset s'.context name { job := name, cancel := false },
      workers := aset s'.workers name true }

/-- The needs_restart list computed by the first loop of recycle (pool.py
lines 284-307): devices whose process is dead or whose lifetime job count
exceeds max_jobs_per_worker. -/
def needsRestart (s : PoolState) : List String :=
  s.workers.filterMap (fun w =>
    let jobs := (alookup s.total_jobs w.1).getD 0
    if !w.2 then some w.1
    else if s.max_jobs_per_worker < jobs then some w.1
    else none)

/-- Body of the restart loop of recycle: restart d when it is marked,
resetting its lifetime job count. -/
def recycle_go (restart : List String) (acc : PoolState) (d : DeviceParams) : PoolState :=
  if d.device ∈ restart then
    let acc' := create_device_worker acc d
    { acc' with total_jobs := aset acc'.total_jobs d.device 0 }
  else acc

/-- recycle (pool.py lines 282-316): restart every marked device that is in
the device list, resetting its lifetime job count. -/
def recycle (s : PoolState) : PoolState :=
  s.devices.foldl (recycle_go (needsRestart s)) s

/-- submit (pool.py lines 318-345): pick a device, increment its lifetime
job count, recycle, then non-blocking put of (key, fn, args, kwargs) onto
the device's pending queue.  Mutations made before a raise persist. -/
def submit (s : PoolState) (key : String) (fn : JobFn) (args : JobArgs)
    (kwargs : JobKw) (needs_device : Option DeviceParams) :
    Option PyErr × PoolState :=
  match get_next_device s needs_device with
  | .error e => (some e, s)
  | .ok device_idx =>
    match s.devices[device_idx]? with
    | none => (some .indexError, s)
    | some dp =>
      let device := dp.device
      let s1 := { s with
        total_jobs := aset s.total_jobs device ((alookup s.total_jobs device).getD 0 + 1) }
      let s2 := recycle s1
      match alookup s2.pending device with
      | none => (some (.keyError device), s2)
      | some q =>
        match q.put (key, fn, args, kwargs) with
        | .error e => (some e, s2)
        | .ok q' => (none, { s2 with pending := aset s2.pending device q' })

/-- join (pool.py lines 252-280): close the three shared streams and every
pending queue, then clear the pending map.  Worker and fan joins do not
mutate the executor state. -/
def join (s : PoolState) : PoolState :=
  { s with
    logs := s.logs.close,
    finishedQ := s.finishedQ.close,
    progressQ := s.progressQ.close,
    pending := [] }

/-- State after the cancel call, keeping partial mutations from the
exception path. -/
def cancel_run (s : PoolState) (key : String) : PoolState := (cancel s key).2

/-- n consecutive cancel calls for the same key. -/
def cancel_iter (s : PoolState) (key : String) : Nat → PoolState
  | 0 => s
  | n + 1 => cancel_run (cancel_iter s key n) key

/-! Concrete states used by the evidence theorems. -/

/-- A sample job callable; never invoked by the embedded code. -/
def fnId : JobFn := fun n => n

def d0 : DeviceParams := { device := "d0" }

def d1 : DeviceParams := { device := "d1" }

/-- A freshly constructed two-device executor with default limits and no
history, as after DevicePoolExecutor.__init__ on [d0, d1]. -/
def basePool : PoolState :=
  { devices := [d0, d1]
    max_jobs_per_worker := 10
    max_pending_per_worker := 100
    context := [("d0", { job := "d0", cancel := false }), ("d1", { job := "d1", cancel := false })]
    pending := [("d0", BQueue.mk0 PEntry 100), ("d1", BQueue.mk0 PEntry 100)]
    workers := [("d0", true), ("d1", true)]
    active_jobs := []
    cancelled_jobs := []
    finished_jobs := []
    total_jobs := []
    logs := BQueue.mk0 String 100
    progressQ := BQueue.mk0 (String × String × Nat) 100
    finishedQ := BQueue.mk0 (String × String) 100 }

/-- basePool after the first unpinned submission. -/
def poolC1a : PoolState := (submit basePool "j1" fnId [] [] none).2

/-- after the second unpinned submission. -/
def poolC1b : PoolState := (submit poolC1a "j2" fnId [] [] none).2

/-- after the third unpinned submission. -/
def poolC1c : PoolState := (submit poolC1b "j3" fnId [] [] none).2

/-- C1: the claim says get_next_device picks the device with the smallest
pending-queue depth, ties broken by device order, so four back-to-back
unpinned submissions on two idle devices should go d0, d1, d0, d1.  The
code's Counter arithmetic mixes device indices with queue sizes: on two
devices with equal (empty) queues it picks index 1, and the four
submissions are assigned d1, d0, d0, d0.  This theorem evaluates the
embedded source at that failing input. -/
theorem c1_get_next_device_counter_bug :
    get_next_device basePool none = Except.ok 1
    ∧ get_next_device poolC1a none = Except.ok 0
    ∧ get_next_device poolC1b none = Except.ok 0
    ∧ get_next_device poolC1c none = Except.ok 0
    ∧ (alookup poolC1c.pending "d0").map BQueue.qsize = some 2
    ∧ (alookup poolC1c.pending "d1").map BQueue.qsize = some 1 :=
  ⟨rfl, rfl, rfl, rfl, rfl, rfl⟩

/-- Worker context holding one queued job, as a device worker sees it. -/
def wctxC2 : WorkerContextS :=
  { job := "d0"
    device := "d0"
    cancel := false
    pending := { capacity := 100, items := [("j1", fnId, [], [])], closed := false }
    progress := BQueue.mk0 (String × String × Nat) 100
    finished := BQueue.mk0 (String × String) 100
    logs := BQueue.mk0 String 100 }

/-- C2: the claim says the worker invokes fn in a protected scope and pushes
a finished record whether fn succeeds, fails, or is cancelled.  The
worker_init loop in the source only dequeues the entry and logs it: at the
failing input (a queue holding one job) the entry is consumed, nothing is
pushed onto the finished stream, and no stream shows any effect of fn. -/
theorem c2_worker_never_runs_fn_or_finishes :
    (worker_init_step wctxC2).pending.items = []
    ∧ (worker_init_step wctxC2).finished.items = []
    ∧ (worker_init_step wctxC2).progress.items = []
    ∧ (worker_init_step wctxC2).logs.items = [] :=
  ⟨rfl, rfl, rfl, rfl⟩

/-- C4: the on_progress callable returned by get_progress_callback fails
with Cancelled when the context's cancel flag is set; otherwise it records
the step value and pushes (job, device, step) onto the progress stream
without blocking. -/
theorem c4_progress_callback_spec (ctx : WorkerContextS) (attr step ts : Nat) :
    (ctx.cancel = true →
      on_progress ctx attr step ts = (some PyErr.cancelled, ctx, step))
    ∧ (ctx.cancel = false →
       ctx.progress.closed = false →
       ctx.progress.items.length < ctx.progress.capacity →
       on_progress ctx attr step ts =
        (none,
         { ctx with progress :=
            { ctx.progress with items := ctx.progress.items ++ [(ctx.job, ctx.device, step)] } },
         step)) := by
  constructor
  · intro hc
    simp [on_progress, WorkerContextS.is_cancelled, hc]
  · intro hc hcl hlt
    simp [on_progress, WorkerContextS.is_cancelled, hc, WorkerContextS.set_progress,
      BQueue.put, hcl, Nat.not_le_of_lt hlt]

/-- Cancelled variant of the C4 context. -/
def wctxC4t : WorkerContextS := { wctxC2 with cancel := true, job := "j1", device := "d0" }

/-- Uncancelled variant of the C4 context. -/
def wctxC4f : WorkerContextS := { wctxC2 with cancel := false, job := "j1", device := "d0" }

/-- C4 witness: both branches evaluated at concrete contexts. -/
theorem c4_progress_callback_witness :
    on_progress wctxC4t 0 3 7 = (some PyErr.cancelled, wctxC4t, 3)
    ∧ on_progress wctxC4f 0 3 7 =
      (none,
       { wctxC4f with progress :=
          { wctxC4f.progress with items := wctxC4f.progress.items ++ [("j1", "d0", 3)] } },
       3) :=
  ⟨(c4_progress_callback_spec wctxC4t 0 3 7).1 rfl,
   (c4_progress_callback_spec wctxC4f 0 3 7).2 rfl rfl (by decide)⟩

/-! Association-list lemmas shared by the evidence theorems. -/

theorem alookup_aset_self {κ V : Type} [DecidableEq κ] (m : List (κ × V)) (k : κ) (v : V) :
    alookup (aset m k v) k = some v := by
  induction m with
  | nil => simp [aset, alookup]
  | cons hd tl ih =>
    by_cases h : hd.1 = k
    · simp [aset, alookup, h]
    · simpa [aset, alookup, h] using ih

theorem alookup_aset_ne {κ V : Type} [DecidableEq κ] (m : List (κ × V)) (k k' : κ) (v : V)
    (h : k' ≠ k) : alookup (aset m k v) k' = alookup m k' := by
  have hne : k ≠ k' := fun hh => h hh.symm
  induction m with
  | nil => simp [aset, alookup, hne]
  | cons hd tl ih =>
    obtain ⟨a, b⟩ := hd
    by_cases hk : a = k
    · subst hk
      simp [aset, alookup, hne]
    · by_cases hk' : a = k'
      · simp [aset, alookup, hk, hk', h]
      · simpa [aset, alookup, hk, hk'] using ih

theorem alookup_mem {κ V : Type} [DecidableEq κ] (m : List (κ × V)) (k : κ) (v : V)
    (h : alookup m k = some v) : (k, v) ∈ m := by
  induction m with
  | nil => simp [alookup] at h
  | cons hd tl ih =>
    obtain ⟨a, b⟩ := hd
    by_cases hk : a = k
    · simp [alookup, hk] at h
      subst hk
      subst h
      exact List.mem_cons_self _ _
    · simp [alookup, hk] at h
      exact List.mem_cons_of_mem _ (ih h)

theorem aset_aset {κ V : Type} [DecidableEq κ] (m : List (κ × V)) (k : κ) (v w : V) :
    aset (aset m k v) k w = aset m k w := by
  induction m with
  | nil => simp [aset]
  | cons hd tl ih =>
    by_cases hk : hd.1 = k
    · simp [aset, hk]
    · simp [aset, hk, ih]

/-! C8: done search order. -/

/-- Executor state whose finished history holds the same key twice. -/
def csC8 : PoolState :=
  { basePool with finished_jobs := [("j1", 1, false), ("j1", 5, false)] }

/-- C8 counterexample: with the key "j1" finished twice (progress 1 then 5),
done returns the oldest entry's progress 1, while the claimed
most-recent-first search would return 5. -/
theorem c8_done_not_most_recent_first :
    done csC8 "j1" = (some true, 1)
    ∧ done_spec_most_recent csC8 "j1" = (some true, 5)
    ∧ done csC8 "j1" ≠ done_spec_most_recent csC8 "j1" := by
  refine ⟨rfl, rfl, ?_⟩
  decide

/-- The hand-written search loop of done agrees with a find?-based
oldest-first search. -/
theorem find_finished_eq (l : List (String × Nat × Bool)) (key : String) :
    find_finished l key =
      (l.find? (fun e => e.1 = key)).map (fun e => ((e.2).1, (e.2).2)) := by
  induction l with
  | nil => simp [find_finished]
  | cons hd tl ih =>
    by_cases h : hd.1 = key
    · obtain ⟨k, p, c⟩ := hd
      simp_all [find_finished, List.find?]
    · obtain ⟨k, p, c⟩ := hd
      simp_all [find_finished, List.find?]

/-- C8 amended: done returns (Finished, progress) for the OLDEST matching
finished entry (insertion-order search), else (Pending, last_progress) for
an active key, else (Unknown, 0); it is a pure function of the state. -/
theorem c8_done_oldest_first (s : PoolState) (key : String) :
    done s key = done_spec_oldest s key := by
  unfold done done_spec_oldest
  rw [find_finished_eq]
  cases h : s.finished_jobs.find? (fun e => e.1 = key) with
  | none => simp
  | some e => simp

/-! C3: finished history bound. -/

/-- Executor state with ten finished records (the spec's default
finished_limit) and one active job about to finish. -/
def csC3 : PoolState :=
  { basePool with
    finished_jobs :=
      [("f1", 1, false), ("f2", 1, false), ("f3", 1, false), ("f4", 1, false),
       ("f5", 1, false), ("f6", 1, false), ("f7", 1, false), ("f8", 1, false),
       ("f9", 1, false), ("f10", 1, false)]
    active_jobs := [("j11", ("d0", 7))] }

/-- C3 counterexample: handling one more finished record grows
finished_jobs to 11 entries and the oldest entry is still there — there is
no finished_limit bound and no eviction in the code. -/
theorem c3_finished_jobs_unbounded :
    (finished_step csC3 ("j11", "d0")).finished_jobs.length = 11
    ∧ (finished_step csC3 ("j11", "d0")).finished_jobs.head? = some ("f1", 1, false) := by
  constructor
  · rfl
  · rfl

/-- C3 amended: the finished fan appends one record per finished message
and never evicts: the new history is exactly the old one plus the new
record, so its length grows without bound. -/
theorem c3_finished_step_appends (s : PoolState) (job device d' : String)
    (ctx : WCtx) (p : Nat)
    (hc : alookup s.context device = some ctx)
    (ha : alookup s.active_jobs job = some (d', p)) :
    (finished_step s (job, device)).finished_jobs = s.finished_jobs ++ [(job, p, ctx.cancel)]
    ∧ (finished_step s (job, device)).finished_jobs.length = s.finished_jobs.length + 1 := by
  simp [finished_step, hc, ha]

/-- C3 witness: the append theorem applied at the concrete ten-entry state. -/
theorem c3_finished_step_appends_witness :
    (finished_step csC3 ("j11", "d0")).finished_jobs =
      csC3.finished_jobs ++ [("j11", 7, false)]
    ∧ (finished_step csC3 ("j11", "d0")).finished_jobs.length =
      csC3.finished_jobs.length + 1 :=
  c3_finished_step_appends csC3 "j11" "d0" "d0" { job := "d0", cancel := false } 7 rfl rfl

/-! C7: finished record for a job that never emitted progress. -/

/-- Executor state with no active jobs and one old finished record. -/
def csC7 : PoolState :=
  { basePool with finished_jobs := [("x", 1, true)] }

/-- C7 counterexample: draining a finished record for a job with no
active_jobs entry appends nothing — the claimed (job, 0, cancel) record is
not produced (the context of device d0 has cancel = false here). -/
theorem c7_no_record_for_unknown_job :
    (finished_step csC7 ("j1", "d0")).finished_jobs = csC7.finished_jobs
    ∧ (finished_step csC7 ("j1", "d0")).finished_jobs ≠
        csC7.finished_jobs ++ [("j1", 0, false)] := by
  refine ⟨rfl, ?_⟩
  decide

/-- C7 amended: when the drained job has no active_jobs entry, the lookup
failure is swallowed by the fan loop and the state is completely unchanged
(no record appended); the fan keeps running. -/
theorem c7_finished_step_unknown_job_noop (s : PoolState) (job device : String)
    (ha : alookup s.active_jobs job = none) :
    finished_step s (job, device) = s := by
  cases hc : alookup s.context device with
  | none => simp [finished_step, hc]
  | some ctx => simp [finished_step, hc, ha]

/-- C7 witness: the no-op theorem applied at the concrete state. -/
theorem c7_finished_step_unknown_job_noop_witness :
    finished_step csC7 ("j1", "d0") = csC7 :=
  c7_finished_step_unknown_job_noop csC7 "j1" "d0" rfl

/-! Recycle lemmas shared by the submit and recycle theorems. -/

theorem foldl_id_of {α β : Type} (go : α → β → α) (h : ∀ acc d, go acc d = acc)
    (l : List β) (s : α) : l.foldl go s = s := by
  induction l generalizing s with
  | nil => rfl
  | cons d rest ih => rw [List.foldl_cons, h, ih]

/-- With every worker alive and within its job budget, the restart list is
empty. -/
theorem needsRestart_nil (s : PoolState)
    (h : ∀ p ∈ s.workers,
      p.2 = true ∧ (alookup s.total_jobs p.1).getD 0 ≤ s.max_jobs_per_worker) :
    needsRestart s = [] := by
  unfold needsRestart
  rw [List.filterMap_eq_nil_iff]
  intro p hp
  obtain ⟨ha, hj⟩ := h p hp
  simp [ha, Nat.not_lt_of_le hj]

/-- An empty restart list makes recycle a no-op. -/
theorem recycle_noop (s : PoolState) (h : needsRestart s = []) : recycle s = s := by
  unfold recycle
  rw [h]
  exact foldl_id_of _ (fun acc d => by simp [recycle_go]) _ _

/-- After submit's increment of one device's lifetime count, the no-restart
premise still holds when every count was strictly under the budget. -/
theorem needsRestart_after_inc (s : PoolState) (dev : String)
    (hw : ∀ p ∈ s.workers, p.2 = true)
    (ht : ∀ p ∈ s.total_jobs, p.2 + 1 ≤ s.max_jobs_per_worker)
    (hm : 1 ≤ s.max_jobs_per_worker) :
    needsRestart
      { s with
        total_jobs := aset s.total_jobs dev ((alookup s.total_jobs dev).getD 0 + 1) }
      = [] := by
  apply needsRestart_nil
  intro p hp
  refine ⟨hw p hp, ?_⟩
  show (alookup (aset s.total_jobs dev ((alookup s.total_jobs dev).getD 0 + 1)) p.1).getD 0
    ≤ s.max_jobs_per_worker
  by_cases hpd : p.1 = dev
  · subst hpd
    rw [alookup_aset_self]
    cases hl : alookup s.total_jobs p.1 with
    | none => simpa [hl] using hm
    | some c =>
      have := ht (p.1, c) (alookup_mem _ _ _ hl)
      simpa [hl] using this
  · rw [alookup_aset_ne _ _ _ _ hpd]
    cases hl : alookup s.total_jobs p.1 with
    | none => simp [hl]
    | some c =>
      have := ht (p.1, c) (alookup_mem _ _ _ hl)
      simp only [Option.getD_some]
      omega

/-- C5: when the selected device's pending queue is full, submit fails
with Backpressure (queue.Full) and the total_jobs increment it made is
not rolled back; no pending queue is touched.  The no-restart hypotheses
keep recycle from separately resetting the counter. -/
theorem c5_submit_backpressure (s : PoolState) (key : String) (fn : JobFn)
    (args : JobArgs) (kwargs : JobKw) (pin : Option DeviceParams)
    (idx : Nat) (dp : DeviceParams) (q : BQueue PEntry)
    (hidx : get_next_device s pin = Except.ok idx)
    (hdp : s.devices[idx]? = some dp)
    (hq : alookup s.pending dp.device = some q)
    (hfull : q.capacity ≤ q.items.length)
    (hopen : q.closed = false)
    (hw : ∀ p ∈ s.workers, p.2 = true)
    (ht : ∀ p ∈ s.total_jobs, p.2 + 1 ≤ s.max_jobs_per_worker)
    (hm : 1 ≤ s.max_jobs_per_worker) :
    (submit s key fn args kwargs pin).1 = some PyErr.full
    ∧ alookup (submit s key fn args kwargs pin).2.total_jobs dp.device
        = some ((alookup s.total_jobs dp.device).getD 0 + 1)
    ∧ (submit s key fn args kwargs pin).2.pending = s.pending := by
  have hrec : recycle
      { s with
        total_jobs := aset s.total_jobs dp.device ((alookup s.total_jobs dp.device).getD 0 + 1) }
      = { s with
          total_jobs := aset s.total_jobs dp.device ((alookup s.total_jobs dp.device).getD 0 + 1) } :=
    recycle_noop _ (needsRestart_after_inc s dp.device hw ht hm)
  have hput : q.put (key, fn, args, kwargs) = Except.error PyErr.full := by
    simp [BQueue.put, hopen, hfull]
  simp only [submit, hidx, hdp, hrec, hq, hput]
  refine ⟨trivial, ?_, trivial⟩
  exact alookup_aset_self _ _ _

/-! C6: recycle preserves the pending queue, installs a fresh cancel flag,
and resets the lifetime job count. -/

theorem recycle_go_preserves_pending (R : List String) (acc : PoolState)
    (d : DeviceParams) (n : String) (q : BQueue PEntry)
    (hq : alookup acc.pending n = some q) :
    alookup (recycle_go R acc d).pending n = some q := by
  unfold recycle_go
  by_cases hmem : d.device ∈ R
  · rw [if_pos hmem]
    cases hl : alookup acc.pending d.device with
    | some q' => simpa [create_device_worker, hl] using hq
    | none =>
      by_cases hdn : d.device = n
      · rw [hdn] at hl
        rw [hl] at hq
        cases hq
      · have hne : n ≠ d.device := fun hh => hdn hh.symm
        simpa [create_device_worker, hl, alookup_aset_ne _ _ _ _ hne] using hq
  · simpa [hmem] using hq

theorem recycle_go_preserves_PQ (R : List String) (acc : PoolState)
    (d : DeviceParams) (n : String) (q : BQueue PEntry)
    (hq : alookup acc.pending n = some q)
    (hc : alookup acc.context n = some { job := n, cancel := false })
    (ht : alookup acc.total_jobs n = some 0) :
    alookup (recycle_go R acc d).pending n = some q
    ∧ alookup (recycle_go R acc d).context n = some { job := n, cancel := false }
    ∧ alookup (recycle_go R acc d).total_jobs n = some 0 := by
  unfold recycle_go
  by_cases hmem : d.device ∈ R
  · rw [if_pos hmem]
    by_cases hdn : d.device = n
    · subst hdn
      cases hl : alookup acc.pending d.device with
      | none => rw [hl] at hq; cases hq
      | some q' =>
        rw [hl] at hq
        cases hq
        simp [create_device_worker, hl, alookup_aset_self]
    · have hne : n ≠ d.device := fun hh => hdn hh.symm
      cases hl : alookup acc.pending d.device with
      | some q' =>
        simp [create_device_worker, hl, alookup_aset_ne _ _ _ _ hne, hq, hc, ht]
      | none =>
        simp [create_device_worker, hl, alookup_aset_ne _ _ _ _ hne, hq, hc, ht]
  · rw [if_neg hmem]
    exact ⟨hq, hc, ht⟩

theorem recycle_go_establishes (R : List String) (acc : PoolState)
    (d : DeviceParams) (q : BQueue PEntry)
    (hR : d.device ∈ R)
    (hq : alookup acc.pending d.device = some q) :
    alookup (recycle_go R acc d).pending d.device = some q
    ∧ alookup (recycle_go R acc d).context d.device = some { job := d.device, cancel := false }
    ∧ alookup (recycle_go R acc d).total_jobs d.device = some 0 := by
  unfold recycle_go
  rw [if_pos hR]
  cases hl : alookup acc.pending d.device with
  | none => rw [hl] at hq; cases hq
  | some q' =>
    rw [hl] at hq
    cases hq
    simp [create_device_worker, hl, alookup_aset_self]

theorem foldl_recycle_go_preserves_PQ (R : List String) (ds : List DeviceParams)
    (acc : PoolState) (n : String) (q : BQueue PEntry)
    (hq : alookup acc.pending n = some q)
    (hc : alookup acc.context n = some { job := n, cancel := false })
    (ht : alookup acc.total_jobs n = some 0) :
    alookup (ds.foldl (recycle_go R) acc).pending n = some q
    ∧ alookup (ds.foldl (recycle_go R) acc).context n = some { job := n, cancel := false }
    ∧ alookup (ds.foldl (recycle_go R) acc).total_jobs n = some 0 := by
  induction ds generalizing acc with
  | nil => exact ⟨hq, hc, ht⟩
  | cons d rest ih =>
    rw [List.foldl_cons]
    obtain ⟨h1, h2, h3⟩ := recycle_go_preserves_PQ R acc d n q hq hc ht
    exact ih _ h1 h2 h3

theorem foldl_recycle_go_establishes (R : List String) (ds : List DeviceParams)
    (acc : PoolState) (dp : DeviceParams) (q : BQueue PEntry)
    (hmem : dp ∈ ds) (hR : dp.device ∈ R)
    (hq : alookup acc.pending dp.device = some q) :
    alookup (ds.foldl (recycle_go R) acc).pending dp.device = some q
    ∧ alookup (ds.foldl (recycle_go R) acc).context dp.device
        = some { job := dp.device, cancel := false }
    ∧ alookup (ds.foldl (recycle_go R) acc).total_jobs dp.device = some 0 := by
  induction ds generalizing acc with
  | nil => cases hmem
  | cons d rest ih =>
    rw [List.foldl_cons]
    rcases List.mem_cons.mp hmem with heq | hmem'
    · subst heq
      obtain ⟨h1, h2, h3⟩ := recycle_go_establishes R acc dp q hR hq
      exact foldl_recycle_go_preserves_PQ R rest _ _ _ h1 h2 h3
    · exact ih _ hmem' (recycle_go_preserves_pending R acc d dp.device q hq)

/-- C6: for a device restarted by recycle (dead worker, or lifetime job
count above the budget), the pending queue is exactly the one from before
(no entries lost), the new context carries a fresh cleared cancel flag,
and total_jobs for the device is reset to 0. -/
theorem c6_recycle_frame (s : PoolState) (dp : DeviceParams) (al : Bool)
    (q : BQueue PEntry)
    (hdev : dp ∈ s.devices)
    (hw : (dp.device, al) ∈ s.workers)
    (hcond : al = false ∨ s.max_jobs_per_worker < (alookup s.total_jobs dp.device).getD 0)
    (hq : alookup s.pending dp.device = some q) :
    alookup (recycle s).pending dp.device = some q
    ∧ alookup (recycle s).context dp.device = some { job := dp.device, cancel := false }
    ∧ alookup (recycle s).total_jobs dp.device = some 0 := by
  have hR : dp.device ∈ needsRestart s := by
    apply List.mem_filterMap.mpr
    refine ⟨(dp.device, al), hw, ?_⟩
    rcases hcond with h | h
    · subst h
      simp
    · cases al
      · simp
      · simp [h]
  unfold recycle
  exact foldl_recycle_go_establishes _ _ _ _ _ hdev hR hq

/-- Single-device pool whose pending queue (capacity 1) is already full. -/
def csC5 : PoolState :=
  { basePool with
    devices := [d0]
    context := [("d0", { job := "d0", cancel := false })]
    pending := [("d0", { capacity := 1, items := [("j0", fnId, [], [])], closed := false })]
    workers := [("d0", true)]
    total_jobs := [] }

/-- C5 witness: submitting to the full queue returns Backpressure while the
lifetime job counter keeps its increment and no queue changed. -/
theorem c5_submit_backpressure_witness :
    (submit csC5 "j1" fnId [] [] none).1 = some PyErr.full
    ∧ alookup (submit csC5 "j1" fnId [] [] none).2.total_jobs "d0"
        = some ((alookup csC5.total_jobs "d0").getD 0 + 1)
    ∧ (submit csC5 "j1" fnId [] [] none).2.pending = csC5.pending :=
  c5_submit_backpressure csC5 "j1" fnId [] [] none 0 d0
    { capacity := 1, items := [("j0", fnId, [], [])], closed := false }
    rfl rfl rfl (Nat.le_refl 1) rfl (by decide) (by decide) (by decide)

/-- The pending queue of the C6 scenario, holding one queued job. -/
def qC6 : BQueue PEntry :=
  { capacity := 100, items := [("jq", fnId, [], [])], closed := false }

/-- Single-device pool whose worker has died while a job is queued and the
cancel flag is set. -/
def csC6 : PoolState :=
  { basePool with
    devices := [d0]
    context := [("d0", { job := "d0", cancel := true })]
    pending := [("d0", qC6)]
    workers := [("d0", false)]
    total_jobs := [("d0", 7)] }

/-- C6 witness: recycling the dead worker keeps its queued job, clears the
cancel flag, and resets the job counter. -/
theorem c6_recycle_frame_witness :
    alookup (recycle csC6).pending "d0" = some qC6
    ∧ alookup (recycle csC6).context "d0" = some { job := "d0", cancel := false }
    ∧ alookup (recycle csC6).total_jobs "d0" = some 0 :=
  c6_recycle_frame csC6 d0 false qC6 (by decide) (by decide) (Or.inl rfl) rfl

/-! C9: cancel returns true and is observationally idempotent. -/

theorem cancel_run_active (s : PoolState) (key : String) :
    (cancel_run s key).active_jobs = s.active_jobs := by
  unfold cancel_run cancel
  cases ha : alookup s.active_jobs key with
  | none => simp [ha]
  | some dv =>
    obtain ⟨d, p⟩ := dv
    cases hc : alookup s.context d with
    | none => simp [ha, hc]
    | some c => simp [ha, hc]

theorem cancel_run_finished (s : PoolState) (key : String) :
    (cancel_run s key).finished_jobs = s.finished_jobs := by
  unfold cancel_run cancel
  cases ha : alookup s.active_jobs key with
  | none => simp [ha]
  | some dv =>
    obtain ⟨d, p⟩ := dv
    cases hc : alookup s.context d with
    | none => simp [ha, hc]
    | some c => simp [ha, hc]

theorem cancel_run_cancelled (s : PoolState) (key : String) :
    (cancel_run s key).cancelled_jobs = s.cancelled_jobs ++ [key] := by
  unfold cancel_run cancel
  cases ha : alookup s.active_jobs key with
  | none => simp [ha]
  | some dv =>
    obtain ⟨d, p⟩ := dv
    cases hc : alookup s.context d with
    | none => simp [ha, hc]
    | some c => simp [ha, hc]

theorem cancel_run_context_of_none (s : PoolState) (key : String)
    (ha : alookup s.active_jobs key = none) :
    (cancel_run s key).context = s.context := by
  simp [cancel_run, cancel, ha]

theorem cancel_run_context_of_some (s : PoolState) (key d : String) (p : Nat)
    (c : WCtx)
    (ha : alookup s.active_jobs key = some (d, p))
    (hc : alookup s.context d = some c) :
    (cancel_run s key).context = aset s.context d { job := c.job, cancel := true } := by
  simp [cancel_run, cancel, ha, hc]

theorem cancel_fst_ok (s : PoolState) (key : String)
    (hctx : ∀ e ∈ s.active_jobs, (alookup s.context (e.2).1).isSome = true) :
    (cancel s key).1 = Except.ok true := by
  cases ha : alookup s.active_jobs key with
  | none => simp [cancel, ha]
  | some dv =>
    obtain ⟨d, p⟩ := dv
    have hm : (key, (d, p)) ∈ s.active_jobs := alookup_mem _ _ _ ha
    have hs := hctx (key, (d, p)) hm
    obtain ⟨c, hc⟩ := Option.isSome_iff_exists.mp hs
    simp [cancel, ha, hc]

theorem cancel_iter_active (s : PoolState) (key : String) (n : Nat) :
    (cancel_iter s key n).active_jobs = s.active_jobs := by
  induction n with
  | zero => rfl
  | succ m ih => simp [cancel_iter, cancel_run_active, ih]

theorem cancel_iter_finished (s : PoolState) (key : String) (n : Nat) :
    (cancel_iter s key n).finished_jobs = s.finished_jobs := by
  induction n with
  | zero => rfl
  | succ m ih => simp [cancel_iter, cancel_run_finished, ih]

theorem cancel_iter_cancelled (s : PoolState) (key : String) (n : Nat) :
    (cancel_iter s key n).cancelled_jobs = s.cancelled_jobs ++ List.replicate n key := by
  induction n with
  | zero => simp [cancel_iter]
  | succ m ih =>
    show (cancel_run (cancel_iter s key m) key).cancelled_jobs = _
    rw [cancel_run_cancelled, ih, List.replicate_succ', ← List.append_assoc]

theorem cancel_iter_context (s : PoolState) (key : String)
    (hctx : ∀ e ∈ s.active_jobs, (alookup s.context (e.2).1).isSome = true) (n : Nat) :
    (cancel_iter s key (n + 1)).context = (cancel_run s key).context := by
  induction n with
  | zero => rfl
  | succ m ih =>
    show (cancel_run (cancel_iter s key (m + 1)) key).context = _
    have ta := cancel_iter_active s key (m + 1)
    cases ha : alookup s.active_jobs key with
    | none =>
      rw [cancel_run_context_of_none _ _ (by rw [ta, ha]), ih]
    | some dv =>
      obtain ⟨d, p⟩ := dv
      have hm : (key, (d, p)) ∈ s.active_jobs := alookup_mem _ _ _ ha
      obtain ⟨c, hc⟩ := Option.isSome_iff_exists.mp (hctx (key, (d, p)) hm)
      have hset : (cancel_run s key).context
          = aset s.context d { job := c.job, cancel := true } :=
        cancel_run_context_of_some s key d p c ha hc
      have hc' : alookup (cancel_iter s key (m + 1)).context d
          = some { job := c.job, cancel := true } := by
        rw [ih, hset]
        exact alookup_aset_self _ _ _
      rw [cancel_run_context_of_some _ _ d p _ (by rw [ta, ha]) hc', ih, hset,
        aset_aset]

/-- C9: cancel(key) returns true for every key (given the executor
invariant that every active job's device has a context), and N consecutive
cancel calls leave the same observable state as one: the same done results
for every key, the same status output, and the same per-device cancel
flags. -/
theorem c9_cancel_idempotent (s : PoolState) (key : String) (n : Nat)
    (hn : 1 ≤ n)
    (hctx : ∀ e ∈ s.active_jobs, (alookup s.context (e.2).1).isSome = true) :
    (cancel s key).1 = Except.ok true
    ∧ (∀ k', done (cancel_iter s key n) k' = done (cancel_iter s key 1) k')
    ∧ status (cancel_iter s key n) = status (cancel_iter s key 1)
    ∧ (∀ d, (alookup (cancel_iter s key n).context d).map WCtx.cancel
        = (alookup (cancel_iter s key 1).context d).map WCtx.cancel) := by
  obtain ⟨m, rfl⟩ : ∃ m, n = m + 1 := ⟨n - 1, by omega⟩
  have hcontext : (cancel_iter s key (m + 1)).context = (cancel_iter s key 1).context := by
    rw [cancel_iter_context s key hctx m]
    rfl
  refine ⟨cancel_fst_ok s key hctx, ?_, ?_, ?_⟩
  · intro k'
    unfold done
    rw [cancel_iter_finished, cancel_iter_finished, cancel_iter_active, cancel_iter_active]
  · unfold status
    rw [cancel_iter_finished, cancel_iter_finished, cancel_iter_active, cancel_iter_active,
      cancel_iter_cancelled, cancel_iter_cancelled]
    have hmem : ∀ x : String,
        (x ∈ s.cancelled_jobs ++ List.replicate (m + 1) key)
          ↔ (x ∈ s.cancelled_jobs ++ List.replicate 1 key) := by
      intro x
      simp [List.mem_append, List.mem_replicate]
    congr 1
    apply List.map_congr_left
    intro e _he
    simp only [hmem e.1]
  · intro d
    rw [hcontext]

/-- Two-device pool with one active job on d0. -/
def csC9 : PoolState := { basePool with active_jobs := [("j1", ("d0", 3))] }

/-- C9 witness: two cancels of the same key match one cancel on every
observable, and the call reports true. -/
theorem c9_cancel_idempotent_witness :
    (cancel csC9 "j1").1 = Except.ok true
    ∧ done (cancel_iter csC9 "j1" 2) "j1" = done (cancel_iter csC9 "j1" 1) "j1"
    ∧ status (cancel_iter csC9 "j1" 2) = status (cancel_iter csC9 "j1" 1)
    ∧ (alookup (cancel_iter csC9 "j1" 2).context "d0").map WCtx.cancel
        = (alookup (cancel_iter csC9 "j1" 1).context "d0").map WCtx.cancel := by
  obtain ⟨h1, h2, h3, h4⟩ := c9_cancel_idempotent csC9 "j1" 2 (by decide) (by decide)
  exact ⟨h1, h2 "j1", h3, h4 "d0"⟩

/-! C10: join and later submissions. -/

/-- Single-device pool whose worker has died (as can happen after join's
bounded wait). -/
def csC10 : PoolState :=
  { basePool with
    devices := [d0]
    context := [("d0", { job := "d0", cancel := false })]
    pending := [("d0", BQueue.mk0 PEntry 100)]
    workers := [("d0", false)]
    total_jobs := [("d0", 0)] }

/-- C10 counterexample: after join, a submit pinned to the dead device d0
succeeds — recycle inside submit recreates the pending queue and the job is
enqueued, so the executor does accept further work. -/
theorem c10_submit_after_join_can_succeed :
    (submit (join csC10) "j9" fnId [] [] (some d0)).1 = none
    ∧ ((alookup (submit (join csC10) "j9" fnId [] [] (some d0)).2.pending "d0").map
        (fun q => q.items.length)) = some 1 :=
  ⟨rfl, rfl⟩

theorem join_devices (s : PoolState) : (join s).devices = s.devices := rfl

theorem find_device_index_some (ds : List DeviceParams) (nd : DeviceParams) (i : Nat)
    (h : find_device_index ds nd = some i) : ∃ dp, ds[i]? = some dp := by
  induction ds generalizing i with
  | nil => simp [find_device_index] at h
  | cons d rest ih =>
    unfold find_device_index at h
    by_cases hd : d.device = nd.device
    · simp [hd] at h
      subst h
      exact ⟨d, by simp⟩
    · simp [hd] at h
      obtain ⟨j, hj, hji⟩ := h
      obtain ⟨dp, hdp⟩ := ih j hj
      subst hji
      exact ⟨dp, by simpa using hdp⟩

/-- After join the pending map is empty, so the depth computation inside
get_next_device fails on the first device. -/
theorem depth_join_err (s : PoolState) (hdev : s.devices ≠ []) :
    ∃ d, get_next_device_depth (join s) = Except.error (PyErr.keyError d) := by
  cases hds : s.devices with
  | nil => exact absurd hds hdev
  | cons d rest =>
    refine ⟨d.device, ?_⟩
    simp [get_next_device_depth, join, hds, collect_qsizes, alookup]

/-- C10 amended: after join, provided the submit triggers no worker restart
(every worker alive and every lifetime count strictly under the budget),
every submit fails with a pending-queue lookup error (KeyError) — unpinned
submissions fail inside get_next_device's depth computation, pinned ones at
the enqueue — and the pending map stays empty, so no job is enqueued.  (If
a restart is triggered, the queue is recreated and the submit can succeed:
see the counterexample.) -/
theorem c10_join_blocks_submit (s : PoolState) (key : String) (fn : JobFn)
    (args : JobArgs) (kwargs : JobKw) (pin : Option DeviceParams)
    (hdev : s.devices ≠ [])
    (hw : ∀ p ∈ s.workers, p.2 = true)
    (ht : ∀ p ∈ s.total_jobs, p.2 + 1 ≤ s.max_jobs_per_worker)
    (hm : 1 ≤ s.max_jobs_per_worker) :
    (∃ d, (submit (join s) key fn args kwargs pin).1 = some (PyErr.keyError d))
    ∧ (submit (join s) key fn args kwargs pin).2.pending = [] := by
  cases pin with
  | none =>
    obtain ⟨d, hd⟩ := depth_join_err s hdev
    have hg : get_next_device (join s) none = Except.error (PyErr.keyError d) := by
      simpa [get_next_device] using hd
    constructor
    · exact ⟨d, by simp only [submit, hg]⟩
    · simp only [submit, hg]
      rfl
  | some nd =>
    cases hf : find_device_index s.devices nd with
    | none =>
      obtain ⟨d, hd⟩ := depth_join_err s hdev
      have hg : get_next_device (join s) (some nd) = Except.error (PyErr.keyError d) := by
        simpa [get_next_device, join_devices, hf] using hd
      constructor
      · exact ⟨d, by simp only [submit, hg]⟩
      · simp only [submit, hg]
        rfl
    | some i =>
      obtain ⟨dp, hdp⟩ := find_device_index_some s.devices nd i hf
      have hg : get_next_device (join s) (some nd) = Except.ok i := by
        simp [get_next_device, join_devices, hf]
      have hdp' : (join s).devices[i]? = some dp := hdp
      have hrec : recycle
          { join s with
            total_jobs := aset (join s).total_jobs dp.device
              ((alookup (join s).total_jobs dp.device).getD 0 + 1) }
          = { join s with
              total_jobs := aset (join s).total_jobs dp.device
                ((alookup (join s).total_jobs dp.device).getD 0 + 1) } :=
        recycle_noop _ (needsRestart_after_inc (join s) dp.device hw ht hm)
      have hpend : alookup
          ({ join s with
             total_jobs := aset (join s).total_jobs dp.device
               ((alookup (join s).total_jobs dp.device).getD 0 + 1) } : PoolState).pending
          dp.device = none := rfl
      constructor
      · exact ⟨dp.device, by simp only [submit, hg, hdp', hrec, hpend]⟩
      · simp only [submit, hg, hdp', hrec, hpend]
        rfl

/-- Single-device pool with a live worker and empty history. -/
def csC10b : PoolState :=
  { basePool with
    devices := [d0]
    context := [("d0", { job := "d0", cancel := false })]
    pending := [("d0", BQueue.mk0 PEntry 100)]
    workers := [("d0", true)]
    total_jobs := [("d0", 0)] }

/-- C10 witness: with a live under-budget worker, submit after join fails
with a lookup error and enqueues nothing. -/
theorem c10_join_blocks_submit_witness :
    (∃ d, (submit (join csC10b) "j9" fnId [] [] none).1 = some (PyErr.keyError d))
    ∧ (submit (join csC10b) "j9" fnId [] [] none).2.pending = [] :=
  c10_join_blocks_submit csC10b "j9" fnId [] [] none (by decide) (by decide)
    (by decide) (by decide)
